import Mathlib

/-!
A shallow embedding of the expression compiler in
`src/examples/StringToAGraphExample.py`: the infix-to-postfix converter
(`convert_to_postfix`, shunting-yard) and the postfix-to-command-array
assembler (`postfix_to_agraph`), together with the static operator tables
they consult.

Conventions of the embedding:
* Python lists used as stacks (`stack`, top at index `-1`) become Lean
  lists with the top at the HEAD; consequently Python's `for token in stack`
  (which iterates from the bottom, index `0`, upward) iterates over
  `stack.reverse` here.
* Python exceptions become `Except CompileError`:
  `RuntimeError("Mismatched parenthesis")` is `.mismatchedParentheses`,
  `RuntimeError("Error evaluating postfix expression")` is
  `.malformedExpression`, and the `IndexError` Python raises when `stack[-1]`
  or `stack.pop()` touches an empty list is `.indexError`.
* The operator codes imported from
  `bingo.symbolic_regression.agraph.operator_definitions` (a module outside
  the reviewed sources) are modelled as the closed enumeration `Op`; only
  their identities matter here, not their numeric values.
* Python's regex `([XC])_(\d+)` with `fullmatch` is modelled over the
  token's character list (`\d` taken as the ASCII digits, which covers every
  token the spec mentions).
-/

deriving instance DecidableEq for Except

/-- The compile-time failures of `StringToAGraphExample.py`.
`indexError` models Python's `IndexError` from subscripting or popping an
empty list; the two `RuntimeError`s of the source keep their messages as
constructor names. -/
inductive CompileError where
  | mismatchedParentheses
  | malformedExpression
  | indexError
deriving DecidableEq, Repr

/-- The operator codes used in command rows (modelling the names imported
from `operator_definitions`). -/
inductive Op where
  | Addition
  | Subtraction
  | Multiplication
  | Division
  | Power
  | Variable
  | Constant
deriving DecidableEq, Repr

/-- `operators = {"+", "-", "*", "/", "^"}` (line 7 of the source). -/
def operators : List String := ["+", "-", "*", "/", "^"]

/-- `precedence = {"+": 0, "-": 0, "*": 1, "/": 1, "^": 2}` (line 8).
The Python dict raises `KeyError` on other keys; the source only ever looks
up members of `operators`, so the default branch is never consulted. -/
def precedence : String → Nat
  | "*" => 1
  | "/" => 1
  | "^" => 2
  | _ => 0

/-- `operator_map` (lines 9-10): symbol or leaf-kind letter to operator code.
The source only applies it to the five operator symbols and to the letters
`"X"`/`"C"` produced by the leaf pattern, so the default branch is never
consulted. -/
def operator_map : String → Op
  | "+" => Op.Addition
  | "-" => Op.Subtraction
  | "*" => Op.Multiplication
  | "/" => Op.Division
  | "^" => Op.Power
  | "X" => Op.Variable
  | "C" => Op.Constant
  | _ => Op.Addition

/-- Decimal value of a digit string, as Python's `int` on the second regex
group. -/
def digitsToNat (ds : List Char) : Nat :=
  ds.foldl (fun acc c => acc * 10 + (c.toNat - ('0').toNat)) 0

/-- `var_or_const_pattern.fullmatch(token)` for the pattern `([XC])_(\d+)`
(line 11): on success the two captured groups, as Python's
`match.groups()` — the kind letter (as a string) and the index value
(already through `int`). -/
def var_or_const_fullmatch (token : String) : Option (String × Nat) :=
  match token.toList with
  | c :: '_' :: ds =>
      if (c = 'X' ∨ c = 'C') ∧ ds ≠ [] ∧ ds.all Char.isDigit then
        some (String.mk [c], digitsToNat ds)
      else
        none
  | _ => none

/-- The inner `while` of the operator branch (lines 21-22): pop operators of
`>=` precedence from the stack into the output.  Returns the remaining
stack and the extended output. -/
def popGEOps (token : String) : List String → List String → List String × List String
  | [], output => ([], output)
  | top :: rest, output =>
      if top ∈ operators ∧ precedence token ≤ precedence top then
        popGEOps token rest (output ++ [top])
      else
        (top :: rest, output)

/-- The `")"` branch (lines 26-31): pop into the output until a `"("` is
found, discarding the `"("`.  On an empty stack the `while` condition
`stack[-1] != "("` raises `IndexError`; the guard
`if len(stack) == 0: raise RuntimeError(...)` on lines 28-29 sits after
that subscript and is unreachable, so the error really produced is
`.indexError`. -/
def popUntilParen : List String → List String → Except CompileError (List String × List String)
  | [], _ => Except.error CompileError.indexError
  | top :: rest, output =>
      if top = "(" then Except.ok (rest, output)
      else popUntilParen rest (output ++ [top])

/-- One iteration of the main token loop of `convert_to_postfix`
(lines 19-33), acting on the pair (side stack, output). -/
def processToken (st : List String × List String) (token : String) :
    Except CompileError (List String × List String) :=
  if token ∈ operators then
    let p := popGEOps token st.1 st.2
    Except.ok (token :: p.1, p.2)
  else if token = "(" then
    Except.ok (token :: st.1, st.2)
  else if token = ")" then
    popUntilParen st.1 st.2
  else
    Except.ok (st.1, st.2 ++ [token])

/-- The main token loop of `convert_to_postfix`, over the whole input. -/
def convertLoop : List String → List String × List String →
    Except CompileError (List String × List String)
  | [], st => Except.ok st
  | t :: ts, st => (processToken st t).bind (convertLoop ts)

/-- The final drain (lines 35-38): `for token in stack` iterates the Python
list from the BOTTOM of the stack upward, raising on any `"("`.  The
argument here is therefore the reversed head-is-top stack. -/
def drainStack : List String → List String → Except CompileError (List String)
  | [], output => Except.ok output
  | t :: ts, output =>
      if t = "(" then Except.error CompileError.mismatchedParentheses
      else drainStack ts (output ++ [t])

/-- `convert_to_postfix` (lines 14-40). -/
def convertToPostfix (tokens : List String) : Except CompileError (List String) :=
  (convertLoop tokens ([], [])).bind fun st => drainStack st.1.reverse st.2

/-- One command row `[code, operand1, operand2]`. -/
structure Row where
  code : Op
  operand1 : Nat
  operand2 : Nat
deriving DecidableEq, Repr

/-- The mutable state of `postfix_to_agraph`'s loop: the index stack
(head = top), the growing command array, and the counter `i`. -/
structure AState where
  stack : List Nat
  ca : List Row
  i : Nat
deriving DecidableEq, Repr

/-- One iteration of the loop of `postfix_to_agraph` (lines 47-59).
Operator: pop twice (`operands[0]` = right, `operands[1]` = left; fewer
than two elements raises `IndexError`), append `[code, left, right]`, push
`i`, increment.  Other tokens: append a leaf row only when the pattern
matches, but push `i` and increment in both cases. -/
def assembleStep (s : AState) (token : String) : Except CompileError AState :=
  if token ∈ operators then
    match s.stack with
    | op0 :: op1 :: rest =>
        Except.ok ⟨s.i :: rest, s.ca ++ [⟨operator_map token, op1, op0⟩], s.i + 1⟩
    | _ => Except.error CompileError.indexError
  else
    match var_or_const_fullmatch token with
    | some g =>
        Except.ok ⟨s.i :: s.stack, s.ca ++ [⟨operator_map g.1, g.2, g.2⟩], s.i + 1⟩
    | none => Except.ok ⟨s.i :: s.stack, s.ca, s.i + 1⟩

/-- The loop of `postfix_to_agraph` over the whole postfix sequence. -/
def assembleLoop : List String → AState → Except CompileError AState
  | [], s => Except.ok s
  | t :: ts, s => (assembleStep s t).bind (assembleLoop ts)

/-- `postfix_to_agraph` (lines 43-63): run the loop from the empty state,
fail with `.malformedExpression` when more than one index remains, return
the command array otherwise. -/
def postfixToAgraph (tokens : List String) : Except CompileError (List Row) :=
  (assembleLoop tokens ⟨[], [], 0⟩).bind fun s =>
    if s.stack.length > 1 then Except.error CompileError.malformedExpression
    else Except.ok s.ca

/-- The whole pipeline as run by the example's `__main__` block:
conversion, then assembly. -/
def compile (tokens : List String) : Except CompileError (List Row) :=
  (convertToPostfix tokens).bind postfixToAgraph

/-- Whether an operator code is one of the five binary arithmetic codes. -/
def isBinaryCode : Op → Bool
  | Op.Addition => true
  | Op.Subtraction => true
  | Op.Multiplication => true
  | Op.Division => true
  | Op.Power => true
  | _ => false

/-- The back-reference condition for the row standing at index `k`: a binary
arithmetic row must point at strictly earlier rows. -/
def rowOkAt (k : Nat) (r : Row) : Bool :=
  !isBinaryCode r.code || (decide (r.operand1 < k) && decide (r.operand2 < k))

/-- `rowOkAt` over a list of rows whose first element stands at index `k`. -/
def backrefsOkFrom : Nat → List Row → Bool
  | _, [] => true
  | k, r :: rs => rowOkAt k r && backrefsOkFrom (k + 1) rs

/-- The back-reference invariant of §3 of the spec: every binary arithmetic
row of the command array points at rows strictly before itself. -/
def backrefsOk (ca : List Row) : Bool := backrefsOkFrom 0 ca

lemma backrefsOkFrom_append (ca : List Row) (r : Row) :
    ∀ k, backrefsOkFrom k (ca ++ [r]) =
      (backrefsOkFrom k ca && rowOkAt (k + ca.length) r) := by
  induction ca with
  | nil => intro k; simp [backrefsOkFrom]
  | cons a as ih =>
      intro k
      have h : k + 1 + as.length = k + (as.length + 1) := by omega
      simp only [List.cons_append, backrefsOkFrom, List.append_eq, ih (k + 1),
        h, List.length_cons, Bool.and_assoc]

lemma isBinaryCode_operator_map_of_mem {t : String} (h : t ∈ operators) :
    isBinaryCode (operator_map t) = true := by
  simp only [operators, List.mem_cons, List.not_mem_nil, or_false] at h
  rcases h with rfl | rfl | rfl | rfl | rfl <;> decide

lemma var_or_const_fullmatch_kind {t : String} {g : String × Nat}
    (h : var_or_const_fullmatch t = some g) : g.1 = "X" ∨ g.1 = "C" := by
  unfold var_or_const_fullmatch at h
  split at h
  · split at h
    · rename_i c ds hcond
      injection h with h
      subst h
      rcases hcond.1 with rfl | rfl
      · exact Or.inl rfl
      · exact Or.inr rfl
    · exact absurd h (by simp)
  · exact absurd h (by simp)

/-- The loop invariant of the assembler: the command array has exactly
`i` rows, every index on the stack points below `i`, and the array built so
far satisfies the back-reference condition. -/
def InvA (s : AState) : Prop :=
  s.ca.length = s.i ∧ (∀ j ∈ s.stack, j < s.i) ∧ backrefsOk s.ca = true

lemma assembleStep_inv {s s' : AState} {t : String} (hs : InvA s)
    (hgood : t ∈ operators ∨ (var_or_const_fullmatch t).isSome = true)
    (hstep : assembleStep s t = Except.ok s') : InvA s' := by
  obtain ⟨hlen, hstack, hok⟩ := hs
  unfold backrefsOk at hok
  unfold assembleStep at hstep
  by_cases hop : t ∈ operators
  · rw [if_pos hop] at hstep
    match hl : s.stack, hstep with
    | op0 :: op1 :: rest, hstep =>
        injection hstep with hstep
        subst hstep
        have hop0 : op0 < s.i := hstack op0 (hl ▸ List.mem_cons_self ..)
        have hop1 : op1 < s.i :=
          hstack op1 (hl ▸ List.mem_cons_of_mem _ (List.mem_cons_self ..))
        refine ⟨by simp [hlen], ?_, ?_⟩
        · intro j hj
          rcases List.mem_cons.mp hj with rfl | hj
          · exact Nat.lt_succ_self _
          · have : j ∈ s.stack :=
              hl ▸ List.mem_cons_of_mem _ (List.mem_cons_of_mem _ hj)
            exact Nat.lt_succ_of_lt (hstack j this)
        · show backrefsOkFrom 0 _ = true
          rw [backrefsOkFrom_append]
          simp [hok, rowOkAt, isBinaryCode_operator_map_of_mem hop, hlen,
            hop0, hop1]
  · rw [if_neg hop] at hstep
    rcases hgood with hgood | hgood
    · exact absurd hgood hop
    · cases hmatch : var_or_const_fullmatch t with
      | none => rw [hmatch] at hgood; simp at hgood
      | some g =>
          rw [hmatch] at hstep
          injection hstep with hstep
          subst hstep
          have hnotbin : isBinaryCode (operator_map g.1) = false := by
            rcases var_or_const_fullmatch_kind hmatch with h1 | h1 <;>
              rw [h1] <;> decide
          refine ⟨by simp [hlen], ?_, ?_⟩
          · intro j hj
            rcases List.mem_cons.mp hj with rfl | hj
            · exact Nat.lt_succ_self _
            · exact Nat.lt_succ_of_lt (hstack j hj)
          · show backrefsOkFrom 0 _ = true
            rw [backrefsOkFrom_append]
            simp [hok, rowOkAt, hnotbin]

lemma assembleLoop_inv : ∀ (tokens : List String) (s s' : AState), InvA s →
    (∀ t ∈ tokens, t ∉ operators → (var_or_const_fullmatch t).isSome = true) →
    assembleLoop tokens s = Except.ok s' → InvA s' := by
  intro tokens
  induction tokens with
  | nil =>
      intro s s' hs _ h
      injection h with h
      exact h ▸ hs
  | cons t ts ih =>
      intro s s' hs hgood h
      unfold assembleLoop at h
      cases hstep : assembleStep s t with
      | error e => rw [hstep] at h; exact absurd h (by simp [Except.bind])
      | ok s1 =>
          rw [hstep] at h
          refine ih s1 s' ?_ (fun u hu => hgood u (List.mem_cons_of_mem _ hu)) h
          refine assembleStep_inv hs ?_ hstep
          by_cases hop : t ∈ operators
          · exact Or.inl hop
          · exact Or.inr (hgood t (List.mem_cons_self ..) hop)

lemma drainStack_of_mem_paren : ∀ (l output : List String), "(" ∈ l →
    drainStack l output = Except.error CompileError.mismatchedParentheses := by
  intro l
  induction l with
  | nil => intro output h; exact absurd h (List.not_mem_nil _)
  | cons a as ih =>
      intro output h
      unfold drainStack
      by_cases ha : a = "("
      · rw [if_pos ha]
      · rw [if_neg ha]
        rcases List.mem_cons.mp h with h1 | h1
        · exact absurd h1.symm ha
        · exact ih _ h1

/-- Claim C1: compiling `["X_0","+","X_1","*","X_2"]` is claimed to produce
a root Addition row whose right operand row is a Multiplication of
`X_1, X_2`.  The code does not: the final drain of `convert_to_postfix`
iterates the Python stack from the bottom (`for token in stack`), so the
stacked `"+"` is emitted before the `"*"`, the postfix form is
`["X_0","X_1","X_2","+","*"]`, and the root row (index 4, the single
residual stack index) is a Multiplication row. -/
theorem root_of_mixed_precedence_is_multiplication :
    convertToPostfix ["X_0", "+", "X_1", "*", "X_2"] =
      Except.ok ["X_0", "X_1", "X_2", "+", "*"] ∧
    assembleLoop ["X_0", "X_1", "X_2", "+", "*"] ⟨[], [], 0⟩ =
      Except.ok ⟨[4], [⟨Op.Variable, 0, 0⟩, ⟨Op.Variable, 1, 1⟩,
        ⟨Op.Variable, 2, 2⟩, ⟨Op.Addition, 1, 2⟩, ⟨Op.Multiplication, 0, 3⟩],
        5⟩ ∧
    compile ["X_0", "+", "X_1", "*", "X_2"] =
      Except.ok [⟨Op.Variable, 0, 0⟩, ⟨Op.Variable, 1, 1⟩,
        ⟨Op.Variable, 2, 2⟩, ⟨Op.Addition, 1, 2⟩,
        ⟨Op.Multiplication, 0, 3⟩] := by
  decide

/-- Claim C2: on `["X_0","+","X_1","+","C_0","+","C_1"]` the converter
returns exactly the specified postfix sequence, and the assembler builds
the specified seven-row command array with root index 6 (the single
residual index on the stack, with counter 7). -/
theorem concrete_scenario_compiles_as_specified :
    convertToPostfix ["X_0", "+", "X_1", "+", "C_0", "+", "C_1"] =
      Except.ok ["X_0", "X_1", "+", "C_0", "+", "C_1", "+"] ∧
    assembleLoop ["X_0", "X_1", "+", "C_0", "+", "C_1", "+"] ⟨[], [], 0⟩ =
      Except.ok ⟨[6], [⟨Op.Variable, 0, 0⟩, ⟨Op.Variable, 1, 1⟩,
        ⟨Op.Addition, 0, 1⟩, ⟨Op.Constant, 0, 0⟩, ⟨Op.Addition, 2, 3⟩,
        ⟨Op.Constant, 1, 1⟩, ⟨Op.Addition, 4, 5⟩], 7⟩ ∧
    postfixToAgraph ["X_0", "X_1", "+", "C_0", "+", "C_1", "+"] =
      Except.ok [⟨Op.Variable, 0, 0⟩, ⟨Op.Variable, 1, 1⟩,
        ⟨Op.Addition, 0, 1⟩, ⟨Op.Constant, 0, 0⟩, ⟨Op.Addition, 2, 3⟩,
        ⟨Op.Constant, 1, 1⟩, ⟨Op.Addition, 4, 5⟩] := by
  decide

/-- Claim C3: a `")"` with no unconsumed `"("` to its left is claimed to
fail with the mismatched-parentheses error.  It does not: the `while`
condition `stack[-1] != "("` subscripts the empty stack before the
emptiness guard of lines 28-29 can run, so the converter fails with
Python's `IndexError` instead. -/
theorem unmatched_close_paren_raises_index_error :
    convertToPostfix [")"] = Except.error CompileError.indexError ∧
    convertToPostfix ["X_0", ")"] = Except.error CompileError.indexError := by
  decide

/-- Claim C4 counterexample: the token `"y"` fails the leaf pattern yet
reserves stack index 0 without a row, so the Addition row lands at array
index 1 with `operand2 = 1` — not strictly below its own index.  The
back-reference invariant fails on an array the assembler returns. -/
theorem backref_invariant_fails_on_unmatched_leaf :
    postfixToAgraph ["y", "X_0", "+"] =
      Except.ok [⟨Op.Variable, 0, 0⟩, ⟨Op.Addition, 0, 1⟩] ∧
    backrefsOk [⟨Op.Variable, 0, 0⟩, ⟨Op.Addition, 0, 1⟩] = false := by
  decide

/-- Claim C4 (amended): in every command array the assembler returns for a
postfix sequence whose non-operator tokens all match the leaf pattern,
every binary arithmetic row has both operands strictly below its own
index. -/
theorem backref_invariant_of_matched_leaves :
    ∀ (tokens : List String) (rows : List Row),
      (∀ t ∈ tokens, t ∉ operators → (var_or_const_fullmatch t).isSome = true) →
      postfixToAgraph tokens = Except.ok rows →
      backrefsOk rows = true := by
  intro tokens rows hleaf h
  unfold postfixToAgraph at h
  cases hloop : assembleLoop tokens ⟨[], [], 0⟩ with
  | error e => rw [hloop] at h; exact absurd h (by simp [Except.bind])
  | ok s =>
      rw [hloop] at h
      have hInv : InvA s := by
        refine assembleLoop_inv tokens ⟨[], [], 0⟩ s ⟨rfl, ?_, rfl⟩ hleaf hloop
        intro j hj
        exact absurd hj (List.not_mem_nil _)
      show backrefsOk rows = true
      have h2 : (if s.stack.length > 1 then
          Except.error CompileError.malformedExpression
        else Except.ok s.ca) = Except.ok rows := h
      by_cases hgt : s.stack.length > 1
      · rw [if_pos hgt] at h2; exact absurd h2 (by simp)
      · rw [if_neg hgt] at h2
        injection h2 with h2
        exact h2 ▸ hInv.2.2

/-- Claim C4 witness: the concrete well-formed postfix sequence
`["X_0","X_1","+"]` satisfies the invariant. -/
theorem backref_invariant_witness :
    backrefsOk [⟨Op.Variable, 0, 0⟩, ⟨Op.Variable, 1, 1⟩,
      ⟨Op.Addition, 0, 1⟩] = true :=
  backref_invariant_of_matched_leaves ["X_0", "X_1", "+"] _ (by decide)
    (by decide)

/-- Claim C5: equal precedence compiles left-associatively.
`["X_0","-","X_1","-","X_2"]` builds the array of `(X_0 - X_1) - X_2`:
root row `⟨Subtraction, 2, 3⟩` whose left operand row 2 is
`⟨Subtraction, 0, 1⟩` over the `X_0`/`X_1` rows; it differs from the array
of `X_0 - (X_1 - X_2)`.  The `>=` comparator makes `"^"` left-associative
as well. -/
theorem equal_precedence_left_associative :
    compile ["X_0", "-", "X_1", "-", "X_2"] =
      Except.ok [⟨Op.Variable, 0, 0⟩, ⟨Op.Variable, 1, 1⟩,
        ⟨Op.Subtraction, 0, 1⟩, ⟨Op.Variable, 2, 2⟩,
        ⟨Op.Subtraction, 2, 3⟩] ∧
    ([⟨Op.Variable, 0, 0⟩, ⟨Op.Variable, 1, 1⟩, ⟨Op.Subtraction, 0, 1⟩,
        ⟨Op.Variable, 2, 2⟩, ⟨Op.Subtraction, 2, 3⟩] : List Row) ≠
      [⟨Op.Variable, 0, 0⟩, ⟨Op.Variable, 1, 1⟩, ⟨Op.Variable, 2, 2⟩,
        ⟨Op.Subtraction, 1, 2⟩, ⟨Op.Subtraction, 0, 3⟩] ∧
    compile ["X_0", "^", "X_1", "^", "X_2"] =
      Except.ok [⟨Op.Variable, 0, 0⟩, ⟨Op.Variable, 1, 1⟩,
        ⟨Op.Power, 0, 1⟩, ⟨Op.Variable, 2, 2⟩, ⟨Op.Power, 2, 3⟩] := by
  decide

/-- Claim C6: whenever the assembler's loop completes and leaves more than
one index on the stack, `postfix_to_agraph` fails with the
malformed-expression error and returns no command array. -/
theorem residual_stack_raises_malformed :
    ∀ (tokens : List String) (s : AState),
      assembleLoop tokens ⟨[], [], 0⟩ = Except.ok s →
      1 < s.stack.length →
      postfixToAgraph tokens = Except.error CompileError.malformedExpression := by
  intro tokens s h hgt
  unfold postfixToAgraph
  rw [h]
  show (if s.stack.length > 1 then Except.error CompileError.malformedExpression
    else Except.ok s.ca) = _
  rw [if_pos hgt]

/-- Claim C6 witness: the two-leaf sequence `["X_0","X_1"]` leaves the
indices `[1, 0]` on the stack and fails. -/
theorem residual_stack_witness :
    postfixToAgraph ["X_0", "X_1"] =
      Except.error CompileError.malformedExpression :=
  residual_stack_raises_malformed ["X_0", "X_1"]
    ⟨[1, 0], [⟨Op.Variable, 0, 0⟩, ⟨Op.Variable, 1, 1⟩], 2⟩ (by decide)
    (by decide)

/-- Claim C7 counterexample: `[")", "("]` contains a `"("` never closed by
a matching `")"`, yet the converter fails with the `IndexError` of the
stray-`")"` path, not with the mismatched-parentheses error. -/
theorem unclosed_paren_after_stray_close_raises_index_error :
    convertToPostfix [")", "("] = Except.error CompileError.indexError ∧
    convertToPostfix [")", "("] ≠
      Except.error CompileError.mismatchedParentheses := by
  decide

/-- Claim C7 (amended): whenever the converter's main loop completes and an
unconsumed `"("` remains on the side stack, the final drain fails with the
mismatched-parentheses error. -/
theorem unclosed_paren_drained_raises_mismatched :
    ∀ (tokens : List String) (st : List String × List String),
      convertLoop tokens ([], []) = Except.ok st →
      "(" ∈ st.1 →
      convertToPostfix tokens =
        Except.error CompileError.mismatchedParentheses := by
  intro tokens st h hmem
  unfold convertToPostfix
  rw [h]
  show drainStack st.1.reverse st.2 = _
  exact drainStack_of_mem_paren _ _ (List.mem_reverse.mpr hmem)

/-- Claim C7 witness: the single unclosed token `["("]` fails in the
drain. -/
theorem unclosed_paren_witness :
    convertToPostfix ["("] =
      Except.error CompileError.mismatchedParentheses :=
  unclosed_paren_drained_raises_mismatched ["("] (["("], []) (by decide)
    (by decide)

/-- Claim C8: a non-operator token failing the leaf pattern appends no row,
yet still pushes the current counter onto the index stack and increments
the counter. -/
theorem unmatched_leaf_reserves_slot :
    ∀ (s : AState) (token : String),
      token ∉ operators →
      var_or_const_fullmatch token = none →
      assembleStep s token = Except.ok ⟨s.i :: s.stack, s.ca, s.i + 1⟩ := by
  intro s token hop hmatch
  unfold assembleStep
  rw [if_neg hop, hmatch]

/-- Claim C8 witness: the token `"foo"` from the empty state reserves index
0 with no backing row. -/
theorem unmatched_leaf_witness :
    assembleStep ⟨[], [], 0⟩ "foo" = Except.ok ⟨[0], [], 1⟩ :=
  unmatched_leaf_reserves_slot ⟨[], [], 0⟩ "foo" (by decide) (by decide)

/-- Claim C9: the pipeline is deterministic — equal inputs produce equal
postfix sequences and equal command arrays (the embedding is a pure
function of the token list; the source touches only the read-only tables
of lines 7-11). -/
theorem compilation_deterministic :
    ∀ (ts1 ts2 : List String), ts1 = ts2 →
      convertToPostfix ts1 = convertToPostfix ts2 ∧
      compile ts1 = compile ts2 := by
  intro ts1 ts2 h
  subst h
  exact ⟨rfl, rfl⟩

/-- Claim C9 witness: two runs on the same concrete input coincide. -/
theorem compilation_deterministic_witness :
    convertToPostfix ["X_0", "+", "X_1"] =
      convertToPostfix ["X_0", "+", "X_1"] ∧
    compile ["X_0", "+", "X_1"] = compile ["X_0", "+", "X_1"] :=
  compilation_deterministic ["X_0", "+", "X_1"] ["X_0", "+", "X_1"] rfl

/-- Claim C10: the empty postfix sequence raises no error: the loop ends in
the initial state (empty index stack, counter 0), the more-than-one check
does not fire, and the empty command array is returned. -/
theorem empty_sequence_assembles_to_empty_array :
    postfixToAgraph [] = Except.ok ([] : List Row) ∧
    assembleLoop [] ⟨[], [], 0⟩ = Except.ok ⟨[], [], 0⟩ := by
  decide
